import Mathlib

set_option maxHeartbeats 1000000

/-!
Shallow embedding of the filter-pushdown expression translator in
src/pyarrow_filter_expression.rs (rerun-io/datafusion-python).

The Rust code converts a DataFusion logical expression (Expr) into a
PyArrow compute expression by calling Python builder functions.  We model:
  - the source expression tree (Expr, ScalarValue, Operator), keeping the
    variants the translator matches on plus representative unmatched ones;
  - the constructed target expression as a deep term (PyExpr) whose
    constructors record exactly the builder calls the Rust code makes
    (field, scalar, the operator-module binary symbols, invert, is_valid,
    is_null, isin);
  - fallible Rust code via Except, where the question-mark operator is
    monadic bind, so error short-circuiting is preserved;
  - Rust Debug formatting (the format strings in error messages) is
    abstracted to the variant tag of the offending value;
  - machine integers carry no arithmetic in this code path (they are only
    passed through to Python), so they are embedded as Int and Nat, and
    IEEE floats as their bit patterns (Nat), with no operations on them.

A reference evaluation semantics for the target algebra (evalPy) gives the
standard meaning of the builder symbols on rows without nulls; it is used
to state the semantic halves of the Between and InList claims.
-/

namespace PyarrowFilter

/-- Source scalar constants (datafusion::common::ScalarValue), restricted to
the kinds the translator inspects plus representative unsupported kinds
(Null, and the temporal Date32).  Signed integers are embedded as Int,
unsigned as Nat, floats as their bit patterns. -/
inductive ScalarValue where
  | Boolean (v : Option Bool)
  | Int8 (v : Option Int)
  | Int16 (v : Option Int)
  | Int32 (v : Option Int)
  | Int64 (v : Option Int)
  | UInt8 (v : Option Nat)
  | UInt16 (v : Option Nat)
  | UInt32 (v : Option Nat)
  | UInt64 (v : Option Nat)
  | Float32 (v : Option Nat)
  | Float64 (v : Option Nat)
  | Utf8 (v : Option String)
  | Null
  | Date32 (v : Option Int)
  deriving DecidableEq

/-- Binary operators (datafusion::logical_expr::Operator): the eight the
translator supports plus representative others for the default arm. -/
inductive Operator where
  | Eq
  | NotEq
  | Lt
  | LtEq
  | Gt
  | GtEq
  | And
  | Or
  | Plus
  | Minus
  | Multiply
  | Divide
  | Modulo
  | BitwiseAnd
  | BitwiseOr
  | RegexMatch
  | StringConcat
  deriving DecidableEq

/-- Source expression tree (datafusion::logical_expr::Expr): the eight
variants the translator matches, plus representative unmatched variants
(Alias, Cast, Like, Case, ScalarFunction, Wildcard) for the default arm.
Field order follows the Rust structs (Between: expr, negated, low, high;
InList: expr, list, negated). -/
inductive Expr where
  | Column (name : String)
  | Literal (v : ScalarValue)
  | BinaryExpr (left : Expr) (op : Operator) (right : Expr)
  | Not (e : Expr)
  | IsNotNull (e : Expr)
  | IsNull (e : Expr)
  | Between (e : Expr) (negated : Bool) (low : Expr) (high : Expr)
  | InList (e : Expr) (list : List Expr) (negated : Bool)
  | Alias (e : Expr)
  | Cast (e : Expr)
  | Like (e : Expr)
  | Case
  | ScalarFunction (name : String)
  | Wildcard

/-- Python host values produced by into_bound_py_any in extract_scalar_list
and carried inside target scalars.  Floats are bit patterns. -/
inductive PyVal where
  | b (x : Bool)
  | i (x : Int)
  | u (x : Nat)
  | f32 (bits : Nat)
  | f64 (bits : Nat)
  | s (x : String)
  | date32 (x : Int)
  deriving DecidableEq

/-- The binary builder symbols looked up on the Python operator module. -/
inductive PyOp where
  | eq
  | ne
  | lt
  | le
  | gt
  | ge
  | and_
  | or_
  deriving DecidableEq

/-- Target expression: a deep record of the builder calls the translator
makes (pyarrow.compute.field, a materialized scalar, an operator-module
binary symbol applied to two operands, operator.invert, and the
Expression methods is_valid, is_null, isin). -/
inductive PyExpr where
  | field (name : String)
  | scalar (v : PyVal)
  | binOp (op : PyOp) (l : PyExpr) (r : PyExpr)
  | invert (e : PyExpr)
  | isValid (e : PyExpr)
  | isNull (e : PyExpr) (nanIsNull : Bool)
  | isin (e : PyExpr) (vals : List PyVal)
  deriving DecidableEq

/-- Error type (crate::errors::PyDataFusionError); the translator only ever
constructs the Common variant, with a formatted message. -/
inductive PyDataFusionError where
  | Common (msg : String)
  deriving DecidableEq

/-- Abstraction of Rust Debug formatting for operators: the variant tag. -/
def describeOperator : Operator → String
  | .Eq => "Eq"
  | .NotEq => "NotEq"
  | .Lt => "Lt"
  | .LtEq => "LtEq"
  | .Gt => "Gt"
  | .GtEq => "GtEq"
  | .And => "And"
  | .Or => "Or"
  | .Plus => "Plus"
  | .Minus => "Minus"
  | .Multiply => "Multiply"
  | .Divide => "Divide"
  | .Modulo => "Modulo"
  | .BitwiseAnd => "BitwiseAnd"
  | .BitwiseOr => "BitwiseOr"
  | .RegexMatch => "RegexMatch"
  | .StringConcat => "StringConcat"

/-- Abstraction of Rust Debug formatting for scalars: the variant tag. -/
def describeScalar : ScalarValue → String
  | .Boolean _ => "Boolean"
  | .Int8 _ => "Int8"
  | .Int16 _ => "Int16"
  | .Int32 _ => "Int32"
  | .Int64 _ => "Int64"
  | .UInt8 _ => "UInt8"
  | .UInt16 _ => "UInt16"
  | .UInt32 _ => "UInt32"
  | .UInt64 _ => "UInt64"
  | .Float32 _ => "Float32"
  | .Float64 _ => "Float64"
  | .Utf8 _ => "Utf8"
  | .Null => "Null"
  | .Date32 _ => "Date32"

/-- Abstraction of Rust Debug formatting for expressions: the variant tag. -/
def describeExpr : Expr → String
  | .Column _ => "Column"
  | .Literal _ => "Literal"
  | .BinaryExpr _ _ _ => "BinaryExpr"
  | .Not _ => "Not"
  | .IsNotNull _ => "IsNotNull"
  | .IsNull _ => "IsNull"
  | .Between _ _ _ _ => "Between"
  | .InList _ _ _ => "InList"
  | .Alias _ => "Alias"
  | .Cast _ => "Cast"
  | .Like _ => "Like"
  | .Case => "Case"
  | .ScalarFunction _ => "ScalarFunction"
  | .Wildcard => "Wildcard"

/-- Embedding of operator_to_py (pyarrow_filter_expression.rs lines 34-54):
maps the eight supported operators to the operator-module symbols, and
fails with the Unsupported-operator message on every other operator.
The getattr calls cannot fail for these fixed attribute names, so they are
embedded as the plain symbol. -/
def operator_to_py : Operator → Except PyDataFusionError PyOp
  | .Eq => .ok .eq
  | .NotEq => .ok .ne
  | .Lt => .ok .lt
  | .LtEq => .ok .le
  | .Gt => .ok .gt
  | .GtEq => .ok .ge
  | .And => .ok .and_
  | .Or => .ok .or_
  | op => .error (.Common ("Unsupported operator " ++ describeOperator op))

/-- The per-element closure of extract_scalar_list (lines 62-85): a Literal
carrying a non-null scalar of one of the twelve listed kinds becomes the
corresponding Python host value; any other literal fails with the
ScalarValue message, and any non-literal fails with the Literals-only
message. -/
def extract_scalar_one : Expr → Except PyDataFusionError PyVal
  | .Literal v =>
    match v with
    | .Boolean (some x) => .ok (.b x)
    | .Int8 (some x) => .ok (.i x)
    | .Int16 (some x) => .ok (.i x)
    | .Int32 (some x) => .ok (.i x)
    | .Int64 (some x) => .ok (.i x)
    | .UInt8 (some x) => .ok (.u x)
    | .UInt16 (some x) => .ok (.u x)
    | .UInt32 (some x) => .ok (.u x)
    | .UInt64 (some x) => .ok (.u x)
    | .Float32 (some x) => .ok (.f32 x)
    | .Float64 (some x) => .ok (.f64 x)
    | .Utf8 (some x) => .ok (.s x)
    | w => .error (.Common ("PyArrow cannot handle ScalarValue " ++ describeScalar w))
  | e => .error (.Common ("Only a list of Literals are supported got " ++ describeExpr e))

/-- Embedding of extract_scalar_list (lines 56-88): the Rust iterator map
plus collect over Result, which short-circuits at the first failing
element and otherwise returns all converted values in order. -/
def extract_scalar_list : List Expr → Except PyDataFusionError (List PyVal)
  | [] => .ok []
  | e :: rest => do
    let v ← extract_scalar_one e
    let vs ← extract_scalar_list rest
    pure (v :: vs)

/-- Modelled from the spec: scalar_to_pyarrow lives in crate::pyarrow_util,
which is not among the provided sources.  Section 6 of the spec describes
it as the external scalar materializer converting one scalar into the
target literal representation, failing on null scalars and on kinds it
does not support; sections 4.1 and 8 note it supports kinds (for example
temporal ones such as Date32) that the InList list path rejects. -/
def scalar_to_pyarrow : ScalarValue → Except PyDataFusionError PyExpr
  | .Boolean (some x) => .ok (.scalar (.b x))
  | .Int8 (some x) => .ok (.scalar (.i x))
  | .Int16 (some x) => .ok (.scalar (.i x))
  | .Int32 (some x) => .ok (.scalar (.i x))
  | .Int64 (some x) => .ok (.scalar (.i x))
  | .UInt8 (some x) => .ok (.scalar (.u x))
  | .UInt16 (some x) => .ok (.scalar (.u x))
  | .UInt32 (some x) => .ok (.scalar (.u x))
  | .UInt64 (some x) => .ok (.scalar (.u x))
  | .Float32 (some x) => .ok (.scalar (.f32 x))
  | .Float64 (some x) => .ok (.scalar (.f64 x))
  | .Utf8 (some x) => .ok (.scalar (.s x))
  | .Date32 (some x) => .ok (.scalar (.date32 x))
  | v => .error (.Common ("PyArrow cannot handle ScalarValue " ++ describeScalar v))

/-- Embedding of TryFrom for PyArrowFilterExpression (lines 96-181):
the recursive translator.  Match arms, the order of the recursive calls
and of the fallible steps inside each arm, and the error messages follow
the Rust code; the question-mark operator is the Except bind. -/
def translate : Expr → Except PyDataFusionError PyExpr
  | .Column name => .ok (.field name)
  | .Literal scalar => scalar_to_pyarrow scalar
  | .BinaryExpr left op right => do
    let operator ← operator_to_py op
    let l ← translate left
    let r ← translate right
    pure (.binOp operator l r)
  | .Not e => do
    let p ← translate e
    pure (.invert p)
  | .IsNotNull e => do
    let p ← translate e
    pure (.isValid p)
  | .IsNull e => do
    let p ← translate e
    pure (.isNull p false)
  | .Between e negated low high => do
    let p ← translate e
    let pl ← translate low
    let ph ← translate high
    let ret := PyExpr.binOp .and_ (.binOp .le pl p) (.binOp .le p ph)
    pure (if negated then .invert ret else ret)
  | .InList e list negated => do
    let p ← translate e
    let scalars ← extract_scalar_list list
    let ret := PyExpr.isin p scalars
    pure (if negated then .invert ret else ret)
  | e => .error (.Common ("Unsupported Datafusion expression " ++ describeExpr e))

/-- Reference semantics of target-value equality: defined on values of the
same kind, undefined across kinds (the target algebra raises there). -/
def pyValEq : PyVal → PyVal → Option Bool
  | .b x, .b y => some (x == y)
  | .i x, .i y => some (x == y)
  | .u x, .u y => some (x == y)
  | .f32 x, .f32 y => some (x == y)
  | .f64 x, .f64 y => some (x == y)
  | .s x, .s y => some (x == y)
  | .date32 x, .date32 y => some (x == y)
  | _, _ => none

/-- Reference semantics of the target strict order on values of ordered
kinds; undefined across kinds and on float bit patterns. -/
def pyValLt : PyVal → PyVal → Option Bool
  | .b x, .b y => some (!x && y)
  | .i x, .i y => some (decide (x < y))
  | .u x, .u y => some (decide (x < y))
  | .s x, .s y => some (decide (x < y))
  | .date32 x, .date32 y => some (decide (x < y))
  | _, _ => none

/-- Reference semantics of the target non-strict order on values of ordered
kinds; undefined across kinds and on float bit patterns. -/
def pyValLe : PyVal → PyVal → Option Bool
  | .b x, .b y => some (!x || y)
  | .i x, .i y => some (decide (x ≤ y))
  | .u x, .u y => some (decide (x ≤ y))
  | .s x, .s y => some (decide (x ≤ y))
  | .date32 x, .date32 y => some (decide (x ≤ y))
  | _, _ => none

/-- Reference evaluation of a target expression over a row without nulls
(a total assignment of column names to values): the standard meaning of
the builder symbols.  Boolean connectives and inversion are defined on
boolean operands only; on null-free rows is_valid is true and
is_null(nan_is_null) is false; isin is list membership. -/
def evalPy : PyExpr → (String → PyVal) → Option PyVal
  | .field n, r => some (r n)
  | .scalar v, _ => some v
  | .binOp o a c, r => do
    let va ← evalPy a r
    let vc ← evalPy c r
    match o with
    | .eq => (pyValEq va vc).map PyVal.b
    | .ne => (pyValEq va vc).map (fun x => PyVal.b (!x))
    | .lt => (pyValLt va vc).map PyVal.b
    | .le => (pyValLe va vc).map PyVal.b
    | .gt => (pyValLt vc va).map PyVal.b
    | .ge => (pyValLe vc va).map PyVal.b
    | .and_ =>
      match va, vc with
      | .b x, .b y => some (.b (x && y))
      | _, _ => none
    | .or_ =>
      match va, vc with
      | .b x, .b y => some (.b (x || y))
      | _, _ => none
  | .invert e, r =>
    match evalPy e r with
    | some (.b x) => some (.b (!x))
    | _ => none
  | .isValid e, r => (evalPy e r).map (fun _ => .b true)
  | .isNull e _, r => (evalPy e r).map (fun _ => .b false)
  | .isin e vals, r => (evalPy e r).map (fun v => .b (decide (v ∈ vals)))

/-- Spec-side characterization of the list elements extract_scalar_list
accepts, written from the specification wording: a Literal carrying a
non-null scalar of kind boolean, signed integer of width 8, 16, 32 or 64,
unsigned integer of width 8, 16, 32 or 64, 32- or 64-bit float, or UTF-8
string. -/
def specSupportedListElem (e : Expr) : Prop :=
  ∃ v, e = Expr.Literal v ∧
    ((∃ x, v = ScalarValue.Boolean (some x)) ∨
     (∃ x, v = ScalarValue.Int8 (some x)) ∨
     (∃ x, v = ScalarValue.Int16 (some x)) ∨
     (∃ x, v = ScalarValue.Int32 (some x)) ∨
     (∃ x, v = ScalarValue.Int64 (some x)) ∨
     (∃ x, v = ScalarValue.UInt8 (some x)) ∨
     (∃ x, v = ScalarValue.UInt16 (some x)) ∨
     (∃ x, v = ScalarValue.UInt32 (some x)) ∨
     (∃ x, v = ScalarValue.UInt64 (some x)) ∨
     (∃ x, v = ScalarValue.Float32 (some x)) ∨
     (∃ x, v = ScalarValue.Float64 (some x)) ∨
     (∃ x, v = ScalarValue.Utf8 (some x)))

/-- The source expression variants with no arm in the translator match
(they fall to the default arm at lines 174-176). -/
def unhandledVariant : Expr → Bool
  | .Alias _ => true
  | .Cast _ => true
  | .Like _ => true
  | .Case => true
  | .ScalarFunction _ => true
  | .Wildcard => true
  | _ => false

@[simp]
theorem except_ok_bind {α β ε : Type} (a : α) (f : α → Except ε β) :
    (Except.ok a >>= f) = f a := rfl

@[simp]
theorem except_error_bind {α β ε : Type} (e : ε) (f : α → Except ε β) :
    ((Except.error e : Except ε α) >>= f) = Except.error e := rfl

@[simp]
theorem except_map_ok {α β ε : Type} (f : α → β) (a : α) :
    (f <$> (Except.ok a : Except ε α)) = Except.ok (f a) := rfl

@[simp]
theorem except_map_error {α β ε : Type} (f : α → β) (e : ε) :
    (f <$> (Except.error e : Except ε α)) = (Except.error e : Except ε β) := rfl

theorem extract_one_ok_iff (e : Expr) :
    (∃ v, extract_scalar_one e = .ok v) ↔ specSupportedListElem e := by
  constructor
  · rintro ⟨w, h⟩
    cases e <;> simp [extract_scalar_one] at h
    case Literal v =>
      rcases v with ⟨o⟩|⟨o⟩|⟨o⟩|⟨o⟩|⟨o⟩|⟨o⟩|⟨o⟩|⟨o⟩|⟨o⟩|⟨o⟩|⟨o⟩|⟨o⟩|_|⟨o⟩ <;>
        first
          | (cases o <;> simp_all [extract_scalar_one, specSupportedListElem])
          | simp_all [extract_scalar_one, specSupportedListElem]
  · rintro ⟨v, rfl, h⟩
    rcases h with ⟨x, rfl⟩|⟨x, rfl⟩|⟨x, rfl⟩|⟨x, rfl⟩|⟨x, rfl⟩|⟨x, rfl⟩|⟨x, rfl⟩|
      ⟨x, rfl⟩|⟨x, rfl⟩|⟨x, rfl⟩|⟨x, rfl⟩|⟨x, rfl⟩ <;> exact ⟨_, rfl⟩

theorem extract_one_error_of_not (e : Expr) (h : ¬ specSupportedListElem e) :
    ∃ err, extract_scalar_one e = .error err := by
  cases hone : extract_scalar_one e with
  | error err => exact ⟨err, rfl⟩
  | ok v => exact absurd ((extract_one_ok_iff e).mp ⟨v, hone⟩) h

theorem extract_list_error_of_bad (list : List Expr) (x : Expr) (hx : x ∈ list)
    (hbad : ¬ specSupportedListElem x) :
    ∃ err, extract_scalar_list list = .error err := by
  induction list with
  | nil => cases hx
  | cons y ys ih =>
    cases hx with
    | head =>
      obtain ⟨err, herr⟩ := extract_one_error_of_not x hbad
      exact ⟨err, by simp [extract_scalar_list, herr]⟩
    | tail _ hmem =>
      cases hone : extract_scalar_one y with
      | error err => exact ⟨err, by simp [extract_scalar_list, hone]⟩
      | ok v =>
        obtain ⟨err, herr⟩ := ih hmem
        exact ⟨err, by simp [extract_scalar_list, hone, herr]⟩

theorem operator_to_py_unsupported (op : Operator)
    (h : op ∉ [Operator.Eq, .NotEq, .Lt, .LtEq, .Gt, .GtEq, .And, .Or]) :
    operator_to_py op =
      .error (.Common ("Unsupported operator " ++ describeOperator op)) := by
  cases op <;> simp_all [operator_to_py]

/-- C2: the operator mapping is total on the supported set, sending each of
the eight supported operators to its target builder symbol, and every other
operator fails with the Unsupported-operator error, returning no symbol. -/
theorem c2_operator_mapping :
    (operator_to_py .Eq = .ok .eq ∧ operator_to_py .NotEq = .ok .ne ∧
     operator_to_py .Lt = .ok .lt ∧ operator_to_py .LtEq = .ok .le ∧
     operator_to_py .Gt = .ok .gt ∧ operator_to_py .GtEq = .ok .ge ∧
     operator_to_py .And = .ok .and_ ∧ operator_to_py .Or = .ok .or_) ∧
    ∀ op : Operator,
      op ∉ [Operator.Eq, .NotEq, .Lt, .LtEq, .Gt, .GtEq, .And, .Or] →
      operator_to_py op =
        .error (.Common ("Unsupported operator " ++ describeOperator op)) :=
  ⟨⟨rfl, rfl, rfl, rfl, rfl, rfl, rfl, rfl⟩, operator_to_py_unsupported⟩

/-- C2 witness: the arithmetic operator Plus is outside the supported set
and fails with the Unsupported-operator error. -/
theorem c2_operator_mapping_witness :
    operator_to_py .Plus = .error (.Common "Unsupported operator Plus") :=
  c2_operator_mapping.2 .Plus (by decide)

/-- C5: translating IsNull(e) builds is_null on the translation of e with
the fixed argument nan_is_null = false, and translating IsNotNull(e) builds
is_valid on the translation of e. -/
theorem c5_null_predicates (e : Expr) (pe : PyExpr)
    (he : translate e = .ok pe) :
    translate (.IsNull e) = .ok (.isNull pe false) ∧
    translate (.IsNotNull e) = .ok (.isValid pe) := by
  constructor <;> simp [translate, he]

/-- C5 witness: instantiation at the column reference x. -/
theorem c5_null_predicates_witness :
    translate (.IsNull (.Column "x")) = .ok (.isNull (.field "x") false) ∧
    translate (.IsNotNull (.Column "x")) = .ok (.isValid (.field "x")) :=
  c5_null_predicates (.Column "x") (.field "x") rfl

/-- C8: every source expression variant outside the eight handled ones
(Column, Literal, BinaryExpr, Not, IsNull, IsNotNull, Between, InList)
makes translate fail with the Unsupported-expression error describing the
expression, returning no target object. -/
theorem c8_unsupported_expression (e : Expr) (h : unhandledVariant e = true) :
    translate e =
      .error (.Common ("Unsupported Datafusion expression " ++ describeExpr e)) := by
  cases e <;> simp_all [unhandledVariant] <;> rfl

/-- C8 witness: the Case variant is unhandled and fails with the
Unsupported-expression error. -/
theorem c8_unsupported_expression_witness :
    translate .Case = .error (.Common "Unsupported Datafusion expression Case") :=
  c8_unsupported_expression .Case (by decide)

/-- C9: in the BinaryExpr arm the operator is looked up before either child
is translated, so an unsupported operator always yields the
Unsupported-operator error, regardless of the children (in particular even
when translating a child would itself fail). -/
theorem c9_operator_error_precedence (l r : Expr) (op : Operator)
    (hop : op ∉ [Operator.Eq, .NotEq, .Lt, .LtEq, .Gt, .GtEq, .And, .Or]) :
    translate (.BinaryExpr l op r) =
      .error (.Common ("Unsupported operator " ++ describeOperator op)) := by
  simp [translate, operator_to_py_unsupported op hop]

/-- C9 witness: with the unsupported operator Modulo and a left child whose
own translation fails (Wildcard), the result is the operator error, not the
child error. -/
theorem c9_operator_error_precedence_witness :
    translate (.BinaryExpr .Wildcard .Modulo (.Column "y")) =
      .error (.Common "Unsupported operator Modulo") :=
  c9_operator_error_precedence .Wildcard (.Column "y") .Modulo (by decide)

/-- C10: an InList with an empty element list is not an error:
extract_scalar_list on the empty list returns the empty list, and whenever
the inner expression translates, the whole InList translates to isin over
the empty list, inverted exactly when negated. -/
theorem c10_empty_inlist (e : Expr) (negated : Bool) (pe : PyExpr)
    (he : translate e = .ok pe) :
    extract_scalar_list [] = .ok [] ∧
    translate (.InList e [] negated) =
      .ok (if negated then .invert (.isin pe []) else .isin pe []) := by
  refine ⟨rfl, ?_⟩
  simp [translate, he, extract_scalar_list]

/-- C1: translating Between(e, negated, low, high) builds the conjunction
and_(le(translate(low), translate(e)), le(translate(e), translate(high))),
inverted exactly when negated; and on null-free rows where the three
operands evaluate to values with defined order, the constructed expression
is true exactly when low is at most e and e is at most high for
negated = false, and exactly the complement for negated = true. -/
theorem c1_between_decomposition (e low high : Expr) (negated : Bool)
    (pe pl ph : PyExpr)
    (he : translate e = .ok pe) (hl : translate low = .ok pl)
    (hh : translate high = .ok ph) :
    translate (.Between e negated low high) =
      .ok (if negated
        then .invert (.binOp .and_ (.binOp .le pl pe) (.binOp .le pe ph))
        else .binOp .and_ (.binOp .le pl pe) (.binOp .le pe ph)) ∧
    ∀ (r : String → PyVal) (va vb vc : PyVal) (x y : Bool),
      evalPy pe r = some vb → evalPy pl r = some va → evalPy ph r = some vc →
      pyValLe va vb = some x → pyValLe vb vc = some y →
      evalPy (if negated
        then PyExpr.invert (.binOp .and_ (.binOp .le pl pe) (.binOp .le pe ph))
        else .binOp .and_ (.binOp .le pl pe) (.binOp .le pe ph)) r =
        some (.b (if negated then !(x && y) else (x && y))) := by
  constructor
  · simp [translate, he, hl, hh]
  · intro r va vb vc x y hb ha hc hx hy
    cases negated <;> simp [evalPy, ha, hb, hc, hx, hy]

/-- C1 witness: between 1 and 10 on column x, not negated; the
decomposition is built and accepts the row with x = 5. -/
theorem c1_between_decomposition_witness :
    translate (.Between (.Column "x") false
        (.Literal (.Int32 (some 1))) (.Literal (.Int32 (some 10)))) =
      .ok (.binOp .and_ (.binOp .le (.scalar (.i 1)) (.field "x"))
        (.binOp .le (.field "x") (.scalar (.i 10)))) ∧
    evalPy (.binOp .and_ (.binOp .le (.scalar (.i 1)) (.field "x"))
        (.binOp .le (.field "x") (.scalar (.i 10)))) (fun _ => .i 5) =
      some (.b true) := by
  have h := c1_between_decomposition (.Column "x") (.Literal (.Int32 (some 1)))
    (.Literal (.Int32 (some 10))) false (.field "x") (.scalar (.i 1))
    (.scalar (.i 10)) rfl rfl rfl
  refine ⟨by simpa using h.1, ?_⟩
  have h2 := h.2 (fun _ => .i 5) (.i 1) (.i 5) (.i 10) true true rfl rfl rfl
    (by decide) (by decide)
  simpa using h2

/-- C3: translating InList(e, list, negated) builds isin on the translation
of e over the extracted scalar list, inverted exactly when negated; on
null-free rows a value is accepted exactly when it lies in the list for
negated = false and exactly when it does not for negated = true, and the
result is unchanged under any permutation of the extracted list. -/
theorem c3_inlist_negation (e : Expr) (list : List Expr) (negated : Bool)
    (pe : PyExpr) (vals : List PyVal)
    (he : translate e = .ok pe) (hs : extract_scalar_list list = .ok vals) :
    translate (.InList e list negated) =
      .ok (if negated then .invert (.isin pe vals) else .isin pe vals) ∧
    (∀ (r : String → PyVal) (v : PyVal), evalPy pe r = some v →
      evalPy (if negated then PyExpr.invert (.isin pe vals) else .isin pe vals) r =
        some (.b (if negated then !(decide (v ∈ vals)) else decide (v ∈ vals)))) ∧
    ∀ vals₂ : List PyVal, vals.Perm vals₂ →
      ∀ (r : String → PyVal) (v : PyVal), evalPy pe r = some v →
        evalPy (PyExpr.isin pe vals₂) r = evalPy (PyExpr.isin pe vals) r := by
  refine ⟨?_, ?_, ?_⟩
  · simp [translate, he, hs]
  · intro r v hv
    cases negated <;> simp [evalPy, hv]
  · intro vals₂ hperm r v hv
    simp [evalPy, hv, hperm.mem_iff]

/-- C3 witness: the negated membership of column x in the list 1, 2 is
built as inverted isin; it rejects the row with x = 1, and reordering the
list does not change the result there. -/
theorem c3_inlist_negation_witness :
    translate (.InList (.Column "x")
        [.Literal (.Int32 (some 1)), .Literal (.Int32 (some 2))] true) =
      .ok (.invert (.isin (.field "x") [.i 1, .i 2])) ∧
    evalPy (.invert (.isin (.field "x") [.i 1, .i 2])) (fun _ => .i 1) =
      some (.b false) ∧
    evalPy (.isin (.field "x") [.i 2, .i 1]) (fun _ => .i 1) =
      evalPy (.isin (.field "x") [.i 1, .i 2]) (fun _ => .i 1) := by
  have h := c3_inlist_negation (.Column "x")
    [.Literal (.Int32 (some 1)), .Literal (.Int32 (some 2))] true (.field "x")
    [.i 1, .i 2] rfl rfl
  refine ⟨by simpa using h.1, ?_, ?_⟩
  · have h2 := h.2.1 (fun _ => .i 1) (.i 1) rfl
    simpa using h2
  · exact h.2.2 [.i 2, .i 1] (List.Perm.swap (PyVal.i 2) (PyVal.i 1) [])
      (fun _ => .i 1) (.i 1) rfl

/-- C4: extract_scalar_list fails atomically: if some element of the list
is not a supported literal, the list extraction returns an error and the
translation of the enclosing InList never returns a target object (in
particular, no partial translation of any valid prefix is returned). -/
theorem c4_atomic_list_failure (e x : Expr) (list : List Expr) (negated : Bool)
    (hx : x ∈ list) (hbad : ¬ specSupportedListElem x) :
    (∃ err, extract_scalar_list list = .error err) ∧
    ∀ res, translate (.InList e list negated) ≠ .ok res := by
  obtain ⟨err, herr⟩ := extract_list_error_of_bad list x hx hbad
  refine ⟨⟨err, herr⟩, ?_⟩
  intro res h
  cases he : translate e with
  | error ee => simp [translate, he] at h
  | ok pe => simp [translate, he, herr] at h

/-- C4 witness: the list containing the literal 1 and the column reference
y fails as a whole, and the enclosing InList translation returns no
target object. -/
theorem c4_atomic_list_failure_witness :
    (∃ err, extract_scalar_list
      [Expr.Literal (.Int32 (some 1)), Expr.Column "y"] = .error err) ∧
    ∀ res, translate (.InList (.Column "x")
      [.Literal (.Int32 (some 1)), .Column "y"] false) ≠ .ok res := by
  have h := c4_atomic_list_failure (.Column "x") (.Column "y")
    [.Literal (.Int32 (some 1)), .Column "y"] false (by simp)
    (by simp [specSupportedListElem])
  exact h

/-- C6: a list element is accepted by extract_scalar_list exactly when it
is a Literal carrying a non-null scalar of kind boolean, signed integer of
width 8, 16, 32 or 64, unsigned integer of width 8, 16, 32 or 64, 32- or
64-bit float, or UTF-8 string; every other element makes it fail; and the
asymmetry with the general scalar materializer is real: the temporal
Date32 scalar is materialized by scalar_to_pyarrow for standalone Literal
nodes yet rejected by the list path. -/
theorem c6_list_scalar_support :
    (∀ e : Expr,
      (∃ out, extract_scalar_list [e] = .ok out) ↔ specSupportedListElem e) ∧
    (∀ e : Expr,
      (∃ err, extract_scalar_list [e] = .error err) ↔ ¬ specSupportedListElem e) ∧
    (∃ p, scalar_to_pyarrow (.Date32 (some 0)) = .ok p) ∧
    (∃ err, extract_scalar_list [Expr.Literal (.Date32 (some 0))] = .error err) := by
  have single_ok : ∀ e : Expr,
      (∃ out, extract_scalar_list [e] = .ok out) ↔
        (∃ v, extract_scalar_one e = .ok v) := by
    intro e
    cases hone : extract_scalar_one e <;> simp [extract_scalar_list, hone]
  refine ⟨?_, ?_, ⟨.scalar (.date32 0), rfl⟩, ⟨_, rfl⟩⟩
  · intro e
    rw [single_ok]
    exact extract_one_ok_iff e
  · intro e
    constructor
    · rintro ⟨err, herr⟩ hsup
      obtain ⟨v, hv⟩ := (extract_one_ok_iff e).mpr hsup
      simp [extract_scalar_list, hv] at herr
    · intro hsup
      obtain ⟨err, h1⟩ := extract_one_error_of_not e hsup
      exact ⟨err, by simp [extract_scalar_list, h1]⟩

/-- C6 witness: the boolean literal true is accepted by the list path. -/
theorem c6_list_scalar_support_witness :
    ∃ out, extract_scalar_list [Expr.Literal (.Boolean (some true))] = .ok out :=
  (c6_list_scalar_support.1 (.Literal (.Boolean (some true)))).mpr
    ⟨_, rfl, Or.inl ⟨true, rfl⟩⟩

/-- C7: in the BinaryExpr arm with a supported operator, the children are
translated before the operator symbol is applied to the two results; a
failing left child short-circuits and its error is returned, a failing
right child likewise, and with both children translated the operator is
applied to exactly those two translations. -/
theorem c7_binary_child_propagation (l r : Expr) (op : Operator) (pop : PyOp)
    (hop : operator_to_py op = .ok pop) :
    (∀ err, translate l = .error err →
      translate (.BinaryExpr l op r) = .error err) ∧
    (∀ pl err, translate l = .ok pl → translate r = .error err →
      translate (.BinaryExpr l op r) = .error err) ∧
    (∀ pl pr, translate l = .ok pl → translate r = .ok pr →
      translate (.BinaryExpr l op r) = .ok (.binOp pop pl pr)) := by
  refine ⟨?_, ?_, ?_⟩
  · intro err h1
    simp [translate, hop, h1]
  · intro pl err h1 h2
    simp [translate, hop, h1, h2]
  · intro pl pr h1 h2
    simp [translate, hop, h1, h2]

/-- C7 witness: equality of column x with the untranslatable Wildcard
returns the error of the failing right child. -/
theorem c7_binary_child_propagation_witness :
    translate (.BinaryExpr (.Column "x") .Eq .Wildcard) =
      .error (.Common "Unsupported Datafusion expression Wildcard") :=
  (c7_binary_child_propagation (.Column "x") .Wildcard .Eq .eq rfl).2.1
    (.field "x") (.Common "Unsupported Datafusion expression Wildcard") rfl rfl

/-- C10 witness: instantiation at the column reference x with negation. -/
theorem c10_empty_inlist_witness :
    extract_scalar_list [] = .ok [] ∧
    translate (.InList (.Column "x") [] true) =
      .ok (.invert (.isin (.field "x") [])) := by
  have h := c10_empty_inlist (.Column "x") true (.field "x") rfl
  simpa using h

end PyarrowFilter
